import Mathlib

/-!
Shallow embedding of the DALI graph-builder module
`dali/python/nvidia/dali/ops.py`: operator instances, operator specs,
tensor references, the generic operator factory produced by
`python_op_factory`, and the `TFRecordReader` wrapper.

External collaborators (the `nvidia.dali.backend` bindings `b.OpSpec`,
`b.GetSchema`) are modelled structurally: an `OpSpec` is the ordered
record the backend accumulates, and a `Schema` carries the input-arity
bounds and the output-count rule that the backend supplies.
-/

/-- `TensorReference(name, device, producer)` from
`dali/python/nvidia/dali/tensor.py`; the producing operator instance is
modelled by its node id. -/
structure TensorReference where
  name : String
  device : String
  producer : Nat
  deriving DecidableEq

/-- A Python value as this module manipulates it: a tensor reference, a
string, an integer, or a (possibly nested) list. -/
inductive PyValue where
  | vtensor : TensorReference → PyValue
  | vstr : String → PyValue
  | vint : Int → PyValue
  | vlist : List PyValue → PyValue

/-- The backend `b.OpSpec` object: the ordered record of declared
arguments, inputs, argument inputs and outputs of one operator node. -/
structure OpSpec where
  opName : String
  args : List (String × PyValue)
  inputs : List (String × String)
  argumentInputs : List (String × String)
  outputs : List (String × String)

/-- `b.OpSpec(name)`: a fresh, empty spec for the given operator name. -/
def OpSpec.empty (opName : String) : OpSpec :=
  { opName := opName, args := [], inputs := [], argumentInputs := [], outputs := [] }

/-- `spec.AddArg(key, value)`. -/
def OpSpec.addArg (s : OpSpec) (k : String) (v : PyValue) : OpSpec :=
  { s with args := s.args ++ [(k, v)] }

/-- `spec.AddInput(name, device)`. -/
def OpSpec.addInput (s : OpSpec) (n d : String) : OpSpec :=
  { s with inputs := s.inputs ++ [(n, d)] }

/-- `spec.AddArgumentInput(key, name)`. -/
def OpSpec.addArgumentInput (s : OpSpec) (k n : String) : OpSpec :=
  { s with argumentInputs := s.argumentInputs ++ [(k, n)] }

/-- `spec.AddOutput(name, device)`. -/
def OpSpec.addOutput (s : OpSpec) (n d : String) : OpSpec :=
  { s with outputs := s.outputs ++ [(n, d)] }

/-- The backend schema for one operator kind (`b.GetSchema(name)`):
input arity bounds (`MinNumInput`, `MaxNumInput`) and the output-count
rule (`CalculateOutputs`). -/
structure Schema where
  minNumInput : Nat
  maxNumInput : Nat
  calculateOutputs : OpSpec → Nat

/-- Errors raised by the module, one constructor per raise site family:
`TypeError` for a value that is not a `TensorReference` (or not a list of
them) where one is expected, `RuntimeError` for mismatched input-set
lengths, `ValueError` for an input count outside the schema bounds
(carrying the operator name, both bounds and the received count, as the
formatted message does), `RuntimeError` for an empty list argument, and
`UnboundLocalError` for the argument-input raise site reached while the
local `inp` of the positional-input loops is unbound: there the
`TypeError`'s message formats `type(inp).__name__`, and evaluating that
argument raises before the `TypeError` is ever constructed. -/
inductive Err where
  | typeMismatch
  | inputSetLengthMismatch
  | arityError (opName : String) (minNum maxNum received : Nat)
  | emptyListArgument
  | unboundLocal
  deriving DecidableEq

/-- What an `_OperatorInstance` keeps of the operator object (`self._op`)
that created it: its class name (`type(op).__name__`), its `device`
property, its `schema` property and its `spec` template. -/
structure OpHandle where
  kindName : String
  device : PyValue
  schema : Schema
  spec : OpSpec

/-- An `_OperatorInstance`: node id (from `_OpCounter`), the producing
operator, display name, spec, logical inputs and outputs. -/
structure OperatorInstance where
  id : Nat
  op : OpHandle
  name : PyValue
  spec : OpSpec
  inputs : List PyValue
  outputs : List TensorReference

/-- The scalar-handle branch of input classification: every positional
input must itself be a `TensorReference` and is appended to
`spec.inputs` as `(name, device)`; anything else raises `TypeError`. -/
def addScalarInputs (spec : OpSpec) : List PyValue → Except Err OpSpec
  | [] => .ok spec
  | v :: rest =>
    match v with
    | .vtensor t => addScalarInputs (spec.addInput t.name t.device) rest
    | _ => .error .typeMismatch

/-- One iteration of the outer input-set loop (`for i in range(length)`):
walk all positional inputs; each must be a list (`TypeError` otherwise)
of length exactly `L` (`RuntimeError` otherwise) whose `i`-th element is
a `TensorReference` (`TypeError` otherwise), appended to `spec.inputs`.
The index is always in bounds when this is reached because the length
check precedes the access; the `none` branch is unreachable. -/
def addInputSetRow (L i : Nat) (spec : OpSpec) : List PyValue → Except Err OpSpec
  | [] => .ok spec
  | v :: rest =>
    match v with
    | .vlist l =>
      if l.length = L then
        match l[i]? with
        | some (.vtensor t) => addInputSetRow L i (spec.addInput t.name t.device) rest
        | some _ => .error .typeMismatch
        | none => .error .typeMismatch
      else .error .inputSetLengthMismatch
    | _ => .error .typeMismatch

/-- The outer input-set loop, iterated over the index list
`List.range L` (Python `range(length)`), re-walking all positional
inputs (`inputs0`) at each index. -/
def addInputSetRows (inputs0 : List PyValue) (L : Nat) (spec : OpSpec) : List Nat → Except Err OpSpec
  | [] => .ok spec
  | i :: rest =>
    match addInputSetRow L i spec inputs0 with
    | .error e => .error e
    | .ok s => addInputSetRows inputs0 L s rest

/-- The argument-input loop: every keyword argument other than `name`
must be a `TensorReference`; it is recorded as `(key, value.name)` in
`spec.argument_inputs` and the handle is appended to the instance's
logical input list. A non-handle value reaches a `raise TypeError` whose
message formats the local `inp` of the positional-input loops: when one
of those loops ran (`inpBound`), `TypeError` is raised; when none did,
evaluating the unbound `inp` raises `UnboundLocalError` instead. -/
def addArgumentInputs (inpBound : Bool) (spec : OpSpec) (ins : List PyValue) :
    List (String × PyValue) → Except Err (OpSpec × List PyValue)
  | [] => .ok (spec, ins)
  | (k, v) :: rest =>
    if k = "name" then addArgumentInputs inpBound spec ins rest
    else
      match v with
      | .vtensor t =>
        addArgumentInputs inpBound (spec.addArgumentInput k t.name) (ins ++ [v]) rest
      | _ => .error (if inpBound then .typeMismatch else .unboundLocal)

/-- `_OperatorInstance.__init__(inputs, op, **kwargs)`. The `_OpCounter`
id is taken from (and advances) the explicit counter state first, so a
construction failure still consumes an id; the result is paired with the
new counter value. `inpBound` records whether some positional-input loop
iterated at least once — with no inputs no loop runs, in scalar mode the
loop runs over the non-empty inputs, and in input-set mode the nested
loops run exactly when the first list is non-empty — so it tells whether
the local `inp` is bound by the time the argument-input loop raises. -/
def operatorInstanceInit (op : OpHandle) (inputs : List PyValue)
    (kwargs : List (String × PyValue)) (ctr : Nat) :
    Except Err OperatorInstance × Nat :=
  let oid := ctr
  let dispName : PyValue :=
    match kwargs.lookup "name" with
    | some v => v
    | none => .vstr ("__" ++ op.kindName ++ "_" ++ Nat.repr oid)
  let specAfterInputs : Except Err OpSpec :=
    match inputs with
    | [] => .ok op.spec
    | first :: _ =>
      match first with
      | .vtensor _ => addScalarInputs op.spec inputs
      | .vlist l0 =>
        match addInputSetRows inputs l0.length op.spec (List.range l0.length) with
        | .error e => .error e
        | .ok s => .ok (s.addArg "num_input_sets" (.vint l0.length))
      | _ => .error .typeMismatch
  let inpBound : Bool :=
    match inputs with
    | [] => false
    | first :: _ =>
      match first with
      | .vtensor _ => true
      | .vlist l0 => decide (0 < l0.length)
      | _ => false
  match specAfterInputs with
  | .error e => (.error e, ctr + 1)
  | .ok spec1 =>
    match addArgumentInputs inpBound spec1 inputs kwargs with
    | .error e => (.error e, ctr + 1)
    | .ok (spec2, ins2) =>
      (.ok { id := oid, op := op, name := dispName, spec := spec2,
             inputs := ins2, outputs := [] }, ctr + 1)

/-- `self._op.device == "gpu" or self._op.device == "mixed"` (Python
equality of an arbitrary object with a string literal). -/
def isGpuOrMixed : PyValue → Bool
  | .vstr s => s == "gpu" || s == "mixed"
  | _ => false

/-- The output name minted for output `i` of node `oid` of kind `kind`:
`type(self._op).__name__ + "_id_" + str(self.id) + "_output_" + str(i)`. -/
def mintName (kind : String) (oid i : Nat) : String :=
  kind ++ "_id_" ++ Nat.repr oid ++ "_output_" ++ Nat.repr i

/-- The body of the output-generation loop: for each index, mint a
`TensorReference`, `AddOutput` it to the spec and append it to the
instance's outputs. -/
def genOutputsLoop (kind : String) (oid : Nat) (dev : String) :
    OpSpec × List TensorReference → List Nat → OpSpec × List TensorReference
  | st, [] => st
  | (spec, outs), i :: rest =>
    let t : TensorReference := ⟨mintName kind oid i, dev, oid⟩
    genOutputsLoop kind oid dev (spec.addOutput t.name t.device, outs ++ [t]) rest

/-- `_OperatorInstance.generate_outputs()`: compute the output device
from the operator's device, ask the schema for the output count of the
current spec, then mint that many outputs. -/
def generateOutputs (inst : OperatorInstance) : OperatorInstance :=
  let outputDevice := if isGpuOrMixed inst.op.device then "gpu" else "cpu"
  let numOutput := inst.op.schema.calculateOutputs inst.spec
  let st := genOutputsLoop inst.op.kindName inst.id outputDevice
    (inst.spec, inst.outputs) (List.range numOutput)
  { inst with spec := st.1, outputs := st.2 }

/-- An operator factory object produced by `python_op_factory(name,
op_device)` and constructed with keyword arguments: its class name, its
schema, its spec template and its `device` property. -/
structure Operator where
  kindName : String
  schema : Schema
  spec : OpSpec
  device : PyValue

/-- The stored-argument loop of `Operator.__init__`: every keyword
argument is appended verbatim to the spec, except that a list value with
zero elements raises `RuntimeError` first. -/
def addStoredArgs (spec : OpSpec) : List (String × PyValue) → Except Err OpSpec
  | [] => .ok spec
  | (k, v) :: rest =>
    match v with
    | .vlist [] => .error .emptyListArgument
    | _ => addStoredArgs (spec.addArg k v) rest

/-- `Operator.__init__(**kwargs)` for the factory named `kindName` with
declared default device `opDevice`; `schema` models
`b.GetSchema(type(self).__name__)`. The `device` key is special-cased:
when absent the default device is recorded as an argument and used; when
present the supplied value is used. The stored-argument loop then runs
over all of `kwargs`. -/
def operatorInit (kindName : String) (opDevice : String) (schema : Schema)
    (kwargs : List (String × PyValue)) : Except Err Operator :=
  let spec0 := OpSpec.empty kindName
  let devAndSpec : PyValue × OpSpec :=
    match kwargs.lookup "device" with
    | some v => (v, spec0)
    | none => (.vstr opDevice, spec0.addArg "device" (.vstr opDevice))
  match addStoredArgs devAndSpec.2 kwargs with
  | .error e => .error e
  | .ok spec1 =>
    .ok { kindName := kindName, schema := schema, spec := spec1,
          device := devAndSpec.1 }

/-- The `self._op` view of an operator factory object. -/
def Operator.toHandle (op : Operator) : OpHandle :=
  { kindName := op.kindName, device := op.device, schema := op.schema,
    spec := op.spec }

/-- What `Operator.__call__` returns: the single output handle when the
instance has exactly one output, the whole list otherwise. -/
inductive CallRet where
  | one : TensorReference → CallRet
  | many : List TensorReference → CallRet
  deriving DecidableEq

/-- `Operator.__call__(*inputs, **kwargs)`: arity-check the positional
input count against the schema bounds (raising `ValueError` before any
instance is built, leaving the counter untouched), then build the
instance, generate its outputs and return them. -/
def operatorCall (op : Operator) (inputs : List PyValue)
    (kwargs : List (String × PyValue)) (ctr : Nat) :
    Except Err CallRet × Nat :=
  if inputs.length > op.schema.maxNumInput ∨ inputs.length < op.schema.minNumInput then
    (.error (.arityError op.kindName op.schema.minNumInput op.schema.maxNumInput
      inputs.length), ctr)
  else
    match operatorInstanceInit op.toHandle inputs kwargs ctr with
    | (.error e, ctr2) => (.error e, ctr2)
    | (.ok inst, ctr2) =>
      let inst2 := generateOutputs inst
      match inst2.outputs with
      | [t] => (.ok (.one t), ctr2)
      | outs => (.ok (.many outs), ctr2)

/-- `TFRecordReader.__init__`'s list-wrapping of `path`/`index_path`:
a list is kept, anything else becomes a one-element list. -/
def pathAsList : PyValue → List PyValue
  | .vlist l => l
  | p => [p]

/-- The `TFRecordReader` wrapper object: wrapped paths, the
`_TFRecordReader` schema and spec, the fixed `cpu` device, and the
ordered feature mapping. -/
structure TFRecordReader where
  path : List PyValue
  indexPath : List PyValue
  schema : Schema
  spec : OpSpec
  device : String
  features : List (String × PyValue)

/-- `TFRecordReader.__init__(path, index_path, features, **kwargs)`:
wrap the paths, record them as arguments, append every keyword argument
verbatim (no empty-list check here), and store the features. -/
def tfRecordReaderInit (path indexPath : PyValue)
    (features : List (String × PyValue)) (schema : Schema)
    (kwargs : List (String × PyValue)) : TFRecordReader :=
  let p := pathAsList path
  let ip := pathAsList indexPath
  let spec0 := ((OpSpec.empty "_TFRecordReader").addArg "path" (.vlist p)).addArg
    "index_path" (.vlist ip)
  let spec1 := kwargs.foldl (fun s kv => s.addArg kv.1 kv.2) spec0
  { path := p, indexPath := ip, schema := schema, spec := spec1,
    device := "cpu", features := features }

/-- The `self._op` view of a `TFRecordReader` object
(`type(self).__name__` is `TFRecordReader`). -/
def TFRecordReader.toHandle (r : TFRecordReader) : OpHandle :=
  { kindName := "TFRecordReader", device := .vstr r.device,
    schema := r.schema, spec := r.spec }

/-- The loop state of `TFRecordReader.__call__`: the operator instance
being filled, the output mapping, and the accumulated `feature_names`
and `features` sequences. -/
structure TFLoopState where
  inst : OperatorInstance
  outs : List (String × TensorReference)
  featureNames : List PyValue
  featureValues : List PyValue

/-- The feature loop of `TFRecordReader.__call__`
(`for i, (feature_name, feature) in enumerate(self._features.items())`):
mint an output handle named from the literal kind `_TFRecordReader`, the
instance id and the iteration index, on the reader's device; add it to
the spec and the instance outputs; bind it to the feature name in the
returned mapping; and extend the parallel name/value sequences. -/
def tfFeatureLoop (oid : Nat) (dev : String) :
    TFLoopState → Nat → List (String × PyValue) → TFLoopState
  | st, _, [] => st
  | st, i, (fname, fval) :: rest =>
    let t : TensorReference := ⟨mintName "_TFRecordReader" oid i, dev, oid⟩
    let inst2 :=
      { st.inst with spec := st.inst.spec.addOutput t.name t.device,
                     outputs := st.inst.outputs ++ [t] }
    tfFeatureLoop oid dev
      { inst := inst2,
        outs := st.outs ++ [(fname, t)],
        featureNames := st.featureNames ++ [.vstr fname],
        featureValues := st.featureValues ++ [fval] }
      (i + 1) rest

/-- `TFRecordReader.__call__(*inputs, **kwargs)`: arity-check, build the
instance, run the feature loop, record `feature_names` and `features`
as plain arguments, and return the feature-name → handle mapping. The
final instance (whose spec the backend consumes) is returned alongside
the mapping so the recorded spec stays observable. -/
def tfRecordReaderCall (r : TFRecordReader) (inputs : List PyValue)
    (kwargs : List (String × PyValue)) (ctr : Nat) :
    Except Err (List (String × TensorReference) × OperatorInstance) × Nat :=
  if inputs.length > r.schema.maxNumInput ∨ inputs.length < r.schema.minNumInput then
    (.error (.arityError "TFRecordReader" r.schema.minNumInput r.schema.maxNumInput
      inputs.length), ctr)
  else
    match operatorInstanceInit r.toHandle inputs kwargs ctr with
    | (.error e, ctr2) => (.error e, ctr2)
    | (.ok inst, ctr2) =>
      let st := tfFeatureLoop inst.id r.device
        { inst := inst, outs := [], featureNames := [], featureValues := [] }
        0 r.features
      let finalSpec :=
        (st.inst.spec.addArg "feature_names" (.vlist st.featureNames)).addArg
          "features" (.vlist st.featureValues)
      let finalInst := { st.inst with spec := finalSpec }
      (.ok (st.outs, finalInst), ctr2)

/-!
### Decimal-representation facts

Python's `str(...)` on the node id and output index is `Nat.repr` here.
The output-name uniqueness arguments need that decimal strings consist
of digit characters only and that `Nat.repr` is injective.
-/

/-- `Nat.toDigitsCore` only uses its accumulator by prepending to it. -/
theorem toDigitsCore_acc (b : Nat) (fuel : Nat) : ∀ (n : Nat) (ds : List Char),
    Nat.toDigitsCore b fuel n ds = Nat.toDigitsCore b fuel n [] ++ ds := by
  induction fuel with
  | zero => intro n ds; simp [Nat.toDigitsCore]
  | succ f ih =>
    intro n ds
    simp only [Nat.toDigitsCore]
    by_cases h : n / b = 0
    · simp [h]
    · simp only [h, if_false]
      rw [ih (n / b) (Nat.digitChar (n % b) :: ds), ih (n / b) [Nat.digitChar (n % b)]]
      simp

/-- Digit characters produced for remainders below ten are digits. -/
theorem digitChar_isDigit (m : Nat) (h : m < 10) : (Nat.digitChar m).isDigit = true := by
  interval_cases m <;> decide

/-- Every character of a decimal digit string is a digit. -/
theorem toDigitsCore_digits (fuel : Nat) : ∀ (n : Nat) (c : Char),
    c ∈ Nat.toDigitsCore 10 fuel n [] → c.isDigit = true := by
  induction fuel with
  | zero => intro n c hc; simp [Nat.toDigitsCore] at hc
  | succ f ih =>
    intro n c hc
    simp only [Nat.toDigitsCore] at hc
    by_cases h : n / 10 = 0
    · simp [h] at hc
      exact hc ▸ digitChar_isDigit (n % 10) (Nat.mod_lt n (by norm_num))
    · simp only [h, if_false] at hc
      rw [toDigitsCore_acc] at hc
      rcases List.mem_append.mp hc with h1 | h2
      · exact ih (n / 10) c h1
      · simp at h2
        exact h2 ▸ digitChar_isDigit (n % 10) (Nat.mod_lt n (by norm_num))

/-- Every character of `Nat.repr n` is a digit. -/
theorem repr_digits (n : Nat) (c : Char) (hc : c ∈ (Nat.repr n).data) :
    c.isDigit = true :=
  toDigitsCore_digits (n + 1) n c hc

/-- Decode a most-significant-first decimal digit string. -/
def decodeDigits (l : List Char) : Nat :=
  l.foldl (fun a c => 10 * a + (c.toNat - 48)) 0

theorem decodeDigits_append_singleton (l : List Char) (c : Char) :
    decodeDigits (l ++ [c]) = 10 * decodeDigits l + (c.toNat - 48) := by
  simp [decodeDigits, List.foldl_append]

/-- The numeric value of the digit character of a remainder below ten. -/
theorem digitChar_toNat (m : Nat) (h : m < 10) : (Nat.digitChar m).toNat - 48 = m := by
  interval_cases m <;> decide

/-- Decoding inverts `Nat.toDigitsCore` when the fuel covers the number. -/
theorem decode_toDigitsCore : ∀ (fuel n : Nat), n < 10 ^ fuel →
    decodeDigits (Nat.toDigitsCore 10 fuel n []) = n := by
  intro fuel
  induction fuel with
  | zero =>
    intro n hn
    interval_cases n
    rfl
  | succ f ih =>
    intro n hn
    simp only [Nat.toDigitsCore]
    by_cases h : n / 10 = 0
    · have hlt : n < 10 := (Nat.div_eq_zero_iff (by norm_num)).mp h
      simp [h, decodeDigits, Nat.mod_eq_of_lt hlt, digitChar_toNat n hlt]
    · simp only [h, if_false]
      rw [toDigitsCore_acc, decodeDigits_append_singleton,
        ih (n / 10) ((Nat.div_lt_iff_lt_mul (by norm_num)).mpr (by
          rw [pow_succ] at hn; exact hn)),
        digitChar_toNat (n % 10) (Nat.mod_lt n (by norm_num))]
      exact Nat.div_add_mod n 10

/-- Decoding inverts `Nat.toDigits 10`. -/
theorem decode_toDigits (n : Nat) : decodeDigits (Nat.toDigits 10 n) = n :=
  decode_toDigitsCore (n + 1) n
    (lt_of_lt_of_le (Nat.lt_pow_self (by norm_num) n)
      (Nat.pow_le_pow_right (by norm_num) (Nat.le_succ n)))

/-- `Nat.repr` is injective. -/
theorem repr_inj {m n : Nat} (h : Nat.repr m = Nat.repr n) : m = n := by
  have hd : Nat.toDigits 10 m = Nat.toDigits 10 n := congrArg String.data h
  rw [← decode_toDigits m, ← decode_toDigits n, hd]

/-- A run of characters satisfying `p` followed by one that does not is
recovered exactly by `takeWhile`/`dropWhile`. -/
theorem takeWhile_all_append {α : Type} (p : α → Bool) (a : List α) (c : α) (r : List α)
    (ha : ∀ x ∈ a, p x = true) (hc : p c = false) :
    (a ++ c :: r).takeWhile p = a ∧ (a ++ c :: r).dropWhile p = c :: r := by
  induction a with
  | nil => simp [List.takeWhile_cons, List.dropWhile_cons, hc]
  | cons x xs ih =>
    have hx := ha x (List.mem_cons_self x xs)
    have ih2 := ih fun y hy => ha y (List.mem_cons_of_mem x hy)
    simp [List.takeWhile_cons, List.dropWhile_cons, hx, ih2.1, ih2.2]

/-- A digit run terminated by an underscore determines both the run and
the remainder: the underscore cannot occur inside the run. -/
theorem digits_sep_inj {d1 d2 r1 r2 : List Char}
    (h1 : ∀ c ∈ d1, c.isDigit = true) (h2 : ∀ c ∈ d2, c.isDigit = true)
    (heq : d1 ++ '_' :: r1 = d2 ++ '_' :: r2) : d1 = d2 ∧ r1 = r2 := by
  have t1 := takeWhile_all_append Char.isDigit d1 '_' r1 h1 (by decide)
  have t2 := takeWhile_all_append Char.isDigit d2 '_' r2 h2 (by decide)
  have hd : d1 = d2 := by rw [← t1.1, ← t2.1, heq]
  have hr : ('_' :: r1 : List Char) = '_' :: r2 := by rw [← t1.2, ← t2.2, heq]
  exact ⟨hd, by injection hr⟩

/-- The reversed character data of a minted output name, in separated
normal form: reversed output index digits, an underscore, the reversed
`output` marker, reversed id digits, an underscore, the reversed `id`
marker and the reversed kind. -/
theorem mintName_data_reverse (k : String) (a i : Nat) :
    (mintName k a i).data.reverse =
      (Nat.repr i).data.reverse ++ '_' ::
        ('t' :: 'u' :: 'p' :: 't' :: 'u' :: 'o' :: '_' ::
          ((Nat.repr a).data.reverse ++ '_' :: ('d' :: 'i' :: '_' :: k.data.reverse))) := by
  simp [mintName, String.data_append, List.reverse_append]

/-- Minted output names determine the node id and the output index: the
trailing decimal runs and the fixed `_id_` and `_output_` markers parse
unambiguously from the right, whatever the kind strings are. -/
theorem mintName_inj {k1 k2 : String} {a1 i1 a2 i2 : Nat}
    (h : mintName k1 a1 i1 = mintName k2 a2 i2) : a1 = a2 ∧ i1 = i2 := by
  have hd : (mintName k1 a1 i1).data.reverse = (mintName k2 a2 i2).data.reverse := by
    rw [h]
  rw [mintName_data_reverse, mintName_data_reverse] at hd
  have hdig1 : ∀ c ∈ (Nat.repr i1).data.reverse, c.isDigit = true := fun c hc =>
    repr_digits i1 c (List.mem_reverse.mp hc)
  have hdig2 : ∀ c ∈ (Nat.repr i2).data.reverse, c.isDigit = true := fun c hc =>
    repr_digits i2 c (List.mem_reverse.mp hc)
  have step1 := digits_sep_inj hdig1 hdig2 hd
  have hi : i1 = i2 := repr_inj (String.ext (List.reverse_inj.mp step1.1))
  have hrest := step1.2
  simp only [List.cons.injEq, true_and] at hrest
  have hdig3 : ∀ c ∈ (Nat.repr a1).data.reverse, c.isDigit = true := fun c hc =>
    repr_digits a1 c (List.mem_reverse.mp hc)
  have hdig4 : ∀ c ∈ (Nat.repr a2).data.reverse, c.isDigit = true := fun c hc =>
    repr_digits a2 c (List.mem_reverse.mp hc)
  have step2 := digits_sep_inj hdig3 hdig4 hrest
  exact ⟨repr_inj (String.ext (List.reverse_inj.mp step2.1)), hi⟩

/-!
### Characterization lemmas
-/

/-- Unrolling the output-generation loop: it appends one spec output and
one instance output per index. -/
theorem genOutputsLoop_eq (kind : String) (oid : Nat) (dev : String) :
    ∀ (idxs : List Nat) (spec : OpSpec) (outs : List TensorReference),
    genOutputsLoop kind oid dev (spec, outs) idxs =
      ({ spec with outputs := spec.outputs ++ idxs.map fun i => (mintName kind oid i, dev) },
       outs ++ idxs.map fun i => ⟨mintName kind oid i, dev, oid⟩) := by
  intro idxs
  induction idxs with
  | nil => intro spec outs; simp [genOutputsLoop]
  | cons i rest ih =>
    intro spec outs
    simp [genOutputsLoop, OpSpec.addOutput, ih]

/-- What `generate_outputs` does to an instance, in closed form. -/
theorem generateOutputs_eq (inst : OperatorInstance) :
    generateOutputs inst =
      { inst with
        spec := { inst.spec with outputs := inst.spec.outputs ++
          (List.range (inst.op.schema.calculateOutputs inst.spec)).map fun i =>
            (mintName inst.op.kindName inst.id i,
             if isGpuOrMixed inst.op.device then "gpu" else "cpu") },
        outputs := inst.outputs ++
          (List.range (inst.op.schema.calculateOutputs inst.spec)).map fun i =>
            ⟨mintName inst.op.kindName inst.id i,
             if isGpuOrMixed inst.op.device then "gpu" else "cpu", inst.id⟩ } := by
  simp only [generateOutputs]
  rw [genOutputsLoop_eq]

/-- `_OperatorInstance.__init__` always advances the id counter by one,
whether it succeeds or raises. -/
theorem operatorInstanceInit_ctr (op : OpHandle) (inputs : List PyValue)
    (kwargs : List (String × PyValue)) (ctr : Nat) :
    (operatorInstanceInit op inputs kwargs ctr).2 = ctr + 1 := by
  unfold operatorInstanceInit
  dsimp only
  split
  · rfl
  · split <;> rfl

/-- A successfully constructed instance carries the id the counter held,
an empty output list, and its producing operator. -/
theorem operatorInstanceInit_ok {op : OpHandle} {inputs : List PyValue}
    {kwargs : List (String × PyValue)} {ctr : Nat} {inst : OperatorInstance}
    (h : (operatorInstanceInit op inputs kwargs ctr).1 = .ok inst) :
    inst.id = ctr ∧ inst.outputs = [] ∧ inst.op = op := by
  unfold operatorInstanceInit at h
  dsimp only at h
  split at h
  · simp at h
  · split at h
    · simp at h
    · simp only [Except.ok.injEq] at h
      subst h
      exact ⟨rfl, rfl, rfl⟩

/-!
### Concrete fixtures
-/

/-- A schema with no inputs and a constant output count of one. -/
def schemaOne : Schema := ⟨0, 0, fun _ => 1⟩

/-- A minimal operator handle of kind `A` on the default cpu device. -/
def opA : OpHandle :=
  { kindName := "A", device := .vstr "cpu", schema := schemaOne, spec := OpSpec.empty "A" }

/-- The instance `opA` builds at counter value 0 with no inputs. -/
def instA0 : OperatorInstance :=
  { id := 0, op := opA, name := .vstr "__A_0", spec := OpSpec.empty "A",
    inputs := [], outputs := [] }

/-- The instance `opA` builds at counter value 1 with no inputs. -/
def instA1 : OperatorInstance :=
  { id := 1, op := opA, name := .vstr "__A_1", spec := OpSpec.empty "A",
    inputs := [], outputs := [] }

example : (operatorInstanceInit opA [] [] 0).1 = .ok instA0 := rfl

example : (operatorInstanceInit opA [] [] 1).1 = .ok instA1 := rfl

/-!
### Claims
-/

/-- C1: two operator instances constructed in one build session carry
distinct (monotonically increasing) counter ids, and the sets of output
handle names their `generate_outputs()` calls mint are disjoint —
whatever the kinds and declared arguments are, since every minted name
embeds the id between fixed markers and decimal runs parse uniquely.
The handles minted by one call also carry pairwise distinct names, so no
two handles in a session ever share a name. -/
theorem C1_output_names_never_collide :
    (∀ (op1 op2 : OpHandle) (ins1 ins2 : List PyValue)
      (kw1 kw2 : List (String × PyValue)) (c1 c2 : Nat)
      (inst1 inst2 : OperatorInstance),
      c1 ≠ c2 →
      (operatorInstanceInit op1 ins1 kw1 c1).1 = .ok inst1 →
      (operatorInstanceInit op2 ins2 kw2 c2).1 = .ok inst2 →
      ∀ t1 ∈ (generateOutputs inst1).outputs, ∀ t2 ∈ (generateOutputs inst2).outputs,
        t1.name ≠ t2.name) ∧
    (∀ (op : OpHandle) (ins : List PyValue) (kw : List (String × PyValue))
      (c : Nat) (inst : OperatorInstance),
      (operatorInstanceInit op ins kw c).1 = .ok inst →
      (generateOutputs inst).outputs.Pairwise fun t1 t2 => t1.name ≠ t2.name) := by
  constructor
  · intro op1 op2 ins1 ins2 kw1 kw2 c1 c2 inst1 inst2 hne h1 h2 t1 ht1 t2 ht2
    obtain ⟨hid1, hout1, -⟩ := operatorInstanceInit_ok h1
    obtain ⟨hid2, hout2, -⟩ := operatorInstanceInit_ok h2
    rw [generateOutputs_eq] at ht1 ht2
    simp only [hout1, hout2, List.nil_append, List.mem_map] at ht1 ht2
    obtain ⟨i1, -, rfl⟩ := ht1
    obtain ⟨i2, -, rfl⟩ := ht2
    intro heq
    exact hne (hid1 ▸ hid2 ▸ (mintName_inj heq).1)
  · intro op ins kw c inst h
    obtain ⟨-, hout, -⟩ := operatorInstanceInit_ok h
    rw [generateOutputs_eq]
    simp only [hout, List.nil_append]
    refine List.Pairwise.map _ ?_ (List.pairwise_lt_range _)
    intro i j hij heq
    exact Nat.ne_of_lt hij (mintName_inj heq).2

/-- Witness for C1 at two concrete instances of the same kind built at
counters 0 and 1. -/
theorem C1_output_names_never_collide_witness :
    (0 : Nat) ≠ 1 ∧
    (∀ t1 ∈ (generateOutputs instA0).outputs, ∀ t2 ∈ (generateOutputs instA1).outputs,
      t1.name ≠ t2.name) :=
  ⟨by decide,
   C1_output_names_never_collide.1 opA opA [] [] [] [] 0 1 instA0 instA1
     (by decide) rfl rfl⟩

/-- C2: in input-set mode, positional inputs `[[a1,a2],[b1,b2]]` are
appended to the spec interleaved by index — `a1,b1,a2,b2` — and the
plain argument `num_input_sets = 2` is recorded; parallel lists of
different lengths (`[[a1,a2],[b1]]`) fail with the input-set
length-mismatch error. -/
theorem C2_input_set_mode (op : OpHandle) (a1 a2 b1 b2 : TensorReference) (ctr : Nat) :
    (∃ inst,
      (operatorInstanceInit op
        [.vlist [.vtensor a1, .vtensor a2], .vlist [.vtensor b1, .vtensor b2]] [] ctr).1
        = .ok inst ∧
      inst.spec.inputs = op.spec.inputs ++
        [(a1.name, a1.device), (b1.name, b1.device),
         (a2.name, a2.device), (b2.name, b2.device)] ∧
      inst.spec.args = op.spec.args ++ [("num_input_sets", .vint 2)]) ∧
    (operatorInstanceInit op
      [.vlist [.vtensor a1, .vtensor a2], .vlist [.vtensor b1]] [] ctr).1
      = .error .inputSetLengthMismatch := by
  constructor
  · refine ⟨_, rfl, ?_, ?_⟩ <;>
      simp [OpSpec.addInput, OpSpec.addArg]
  · rfl

/-- C3: `generate_outputs()` appends exactly `n` handles — `n` the
schema's output count for the instance's current spec — to both the
spec's outputs and the instance's outputs, the `i`-th one named
`<kind>_id_<id>_output_<i>`; every minted handle lives on device `gpu`
exactly when the operator's declared device is `gpu` or `mixed`, and on
`cpu` otherwise (the final conjunct characterises that condition). -/
theorem C3_generate_outputs_shape (inst : OperatorInstance) :
    (generateOutputs inst).outputs = inst.outputs ++
      (List.range (inst.op.schema.calculateOutputs inst.spec)).map
        (fun i => ⟨mintName inst.op.kindName inst.id i,
          if isGpuOrMixed inst.op.device then "gpu" else "cpu", inst.id⟩) ∧
    (generateOutputs inst).spec.outputs = inst.spec.outputs ++
      (List.range (inst.op.schema.calculateOutputs inst.spec)).map
        (fun i => (mintName inst.op.kindName inst.id i,
          if isGpuOrMixed inst.op.device then "gpu" else "cpu")) ∧
    (generateOutputs inst).outputs.length =
      inst.outputs.length + inst.op.schema.calculateOutputs inst.spec ∧
    (∀ v : PyValue, isGpuOrMixed v = true ↔ (v = .vstr "gpu" ∨ v = .vstr "mixed")) := by
  refine ⟨?_, ?_, ?_, ?_⟩
  · rw [generateOutputs_eq]
  · rw [generateOutputs_eq]
  · rw [generateOutputs_eq]
    simp
  · intro v
    cases v with
    | vstr s =>
      simp only [isGpuOrMixed, Bool.or_eq_true, beq_iff_eq]
      constructor
      · rintro (rfl | rfl)
        · exact Or.inl rfl
        · exact Or.inr rfl
      · rintro (h | h) <;> simp_all
    | vtensor t => simp [isGpuOrMixed]
    | vint n => simp [isGpuOrMixed]
    | vlist l => simp [isGpuOrMixed]

/-- The scalar-input loop only ever raises `TypeError`. -/
theorem addScalarInputs_err (l : List PyValue) : ∀ (spec : OpSpec) (e : Err),
    addScalarInputs spec l = .error e → e = .typeMismatch := by
  induction l with
  | nil => intro spec e h; simp [addScalarInputs] at h
  | cons v rest ih =>
    intro spec e h
    cases v with
    | vtensor t => exact ih _ e h
    | vstr s => simpa [addScalarInputs] using h.symm
    | vint n => simpa [addScalarInputs] using h.symm
    | vlist m => simpa [addScalarInputs] using h.symm

/-- One input-set row only ever raises `TypeError` or the length
mismatch. -/
theorem addInputSetRow_err (L i : Nat) (l : List PyValue) : ∀ (spec : OpSpec) (e : Err),
    addInputSetRow L i spec l = .error e →
    e = .typeMismatch ∨ e = .inputSetLengthMismatch := by
  induction l with
  | nil => intro spec e h; simp [addInputSetRow] at h
  | cons v rest ih =>
    intro spec e h
    cases v with
    | vlist m =>
      simp only [addInputSetRow] at h
      by_cases hl : m.length = L
      · rw [if_pos hl] at h
        cases hm : m[i]? with
        | none => rw [hm] at h; exact Or.inl (Except.error.inj h).symm
        | some x =>
          rw [hm] at h
          cases x with
          | vtensor t => exact ih _ e h
          | vstr s => exact Or.inl (Except.error.inj h).symm
          | vint n => exact Or.inl (Except.error.inj h).symm
          | vlist m2 => exact Or.inl (Except.error.inj h).symm
      · rw [if_neg hl] at h
        exact Or.inr (Except.error.inj h).symm
    | vtensor t => exact Or.inl (Except.error.inj h).symm
    | vstr s => exact Or.inl (Except.error.inj h).symm
    | vint n => exact Or.inl (Except.error.inj h).symm

/-- The whole input-set loop only ever raises `TypeError` or the length
mismatch. -/
theorem addInputSetRows_err (inputs0 : List PyValue) (L : Nat) (idxs : List Nat) :
    ∀ (spec : OpSpec) (e : Err),
    addInputSetRows inputs0 L spec idxs = .error e →
    e = .typeMismatch ∨ e = .inputSetLengthMismatch := by
  induction idxs with
  | nil => intro spec e h; simp [addInputSetRows] at h
  | cons i rest ih =>
    intro spec e h
    simp only [addInputSetRows] at h
    cases hr : addInputSetRow L i spec inputs0 with
    | error e2 =>
      rw [hr] at h
      exact (Except.error.inj h) ▸ addInputSetRow_err L i inputs0 spec e2 hr
    | ok s => rw [hr] at h; exact ih s e h

/-- The argument-input loop only ever raises `TypeError` (when the
positional loops bound `inp`) or `UnboundLocalError` (when they did
not). -/
theorem addArgumentInputs_err (kws : List (String × PyValue)) :
    ∀ (b : Bool) (spec : OpSpec) (ins : List PyValue) (e : Err),
    addArgumentInputs b spec ins kws = .error e →
    e = .typeMismatch ∨ e = .unboundLocal := by
  induction kws with
  | nil => intro b spec ins e h; simp [addArgumentInputs] at h
  | cons kv rest ih =>
    intro b spec ins e h
    obtain ⟨k, v⟩ := kv
    simp only [addArgumentInputs] at h
    by_cases hk : k = "name"
    · rw [if_pos hk] at h; exact ih _ _ _ e h
    · rw [if_neg hk] at h
      cases v with
      | vtensor t => exact ih _ _ _ e h
      | vstr s =>
        cases b
        · exact Or.inr (Except.error.inj h).symm
        · exact Or.inl (Except.error.inj h).symm
      | vint n =>
        cases b
        · exact Or.inr (Except.error.inj h).symm
        · exact Or.inl (Except.error.inj h).symm
      | vlist m =>
        cases b
        · exact Or.inr (Except.error.inj h).symm
        · exact Or.inl (Except.error.inj h).symm

/-- Instance construction never raises the arity `ValueError`: that
check lives in the caller. -/
theorem operatorInstanceInit_no_arity (op : OpHandle) (inputs : List PyValue)
    (kwargs : List (String × PyValue)) (ctr : Nat) (e : Err)
    (h : (operatorInstanceInit op inputs kwargs ctr).1 = .error e) :
    e = .typeMismatch ∨ e = .inputSetLengthMismatch ∨ e = .unboundLocal := by
  unfold operatorInstanceInit at h
  dsimp only at h
  split at h
  · rename_i e2 hsp
    simp only [Except.error.injEq] at h
    subst h
    rcases inputs with - | ⟨first, rest⟩
    · simp at hsp
    · rcases first with t | s | n | l
      · exact Or.inl (addScalarInputs_err _ _ _ hsp)
      · simp only [Except.error.injEq] at hsp
        exact Or.inl hsp.symm
      · simp only [Except.error.injEq] at hsp
        exact Or.inl hsp.symm
      · dsimp only at hsp
        cases hrows : addInputSetRows (PyValue.vlist l :: rest) l.length op.spec
            (List.range l.length) with
        | error e3 =>
          rw [hrows] at hsp
          simp only [Except.error.injEq] at hsp
          rcases hsp ▸ addInputSetRows_err _ _ _ _ _ hrows with h2 | h2
          · exact Or.inl h2
          · exact Or.inr (Or.inl h2)
        | ok s => rw [hrows] at hsp; simp at hsp
  · split at h
    · rename_i e2 hargs
      simp only [Except.error.injEq] at h
      subst h
      rcases addArgumentInputs_err _ _ _ _ _ hargs with h2 | h2
      · exact Or.inl h2
      · exact Or.inr (Or.inr h2)
    · simp at h

/-- A factory object whose schema requires between 2 and 5 inputs. -/
def opB : Operator :=
  { kindName := "B", schema := ⟨2, 5, fun _ => 1⟩, spec := OpSpec.empty "B",
    device := .vstr "cpu" }

/-- A couple of concrete handles to use as positional inputs. -/
def tX : TensorReference := ⟨"x", "cpu", 0⟩

def tY : TensorReference := ⟨"y", "cpu", 0⟩

/-- C4: a call with strictly fewer positional inputs than `min_inputs`
or strictly more than `max_inputs` fails with the arity `ValueError`
carrying the operator name, both bounds and the received count, before
any instance is constructed (the counter is untouched); a count within
the inclusive bounds never produces an arity error. -/
theorem C4_arity_check (op : Operator) (inputs : List PyValue)
    (kwargs : List (String × PyValue)) (ctr : Nat) :
    ((inputs.length < op.schema.minNumInput ∨ op.schema.maxNumInput < inputs.length) →
      (operatorCall op inputs kwargs ctr).1 =
        .error (.arityError op.kindName op.schema.minNumInput op.schema.maxNumInput
          inputs.length) ∧
      (operatorCall op inputs kwargs ctr).2 = ctr) ∧
    (op.schema.minNumInput ≤ inputs.length → inputs.length ≤ op.schema.maxNumInput →
      ∀ (nm : String) (lo hi got : Nat),
        (operatorCall op inputs kwargs ctr).1 ≠ .error (.arityError nm lo hi got)) := by
  constructor
  · intro hbad
    have hcond : inputs.length > op.schema.maxNumInput ∨
        inputs.length < op.schema.minNumInput := by
      rcases hbad with h | h
      · exact Or.inr h
      · exact Or.inl h
    unfold operatorCall
    rw [if_pos hcond]
    exact ⟨rfl, rfl⟩
  · intro h1 h2 nm lo hi got
    have hcond : ¬(inputs.length > op.schema.maxNumInput ∨
        inputs.length < op.schema.minNumInput) := by
      push_neg
      exact ⟨h2, h1⟩
    unfold operatorCall
    rw [if_neg hcond]
    cases hinit : operatorInstanceInit op.toHandle inputs kwargs ctr with
    | mk res ctr2 =>
      cases res with
      | error e =>
        have he : (operatorInstanceInit op.toHandle inputs kwargs ctr).1 = .error e := by
          rw [hinit]
        intro hcontra
        dsimp only at hcontra
        rcases operatorInstanceInit_no_arity _ _ _ _ _ he with h | h | h <;>
          simp [h] at hcontra
      | ok inst =>
        intro hcontra
        dsimp only at hcontra
        split at hcontra <;> simp at hcontra

/-- Witness for C4 at a schema with bounds `[2, 5]`: zero inputs raise
the arity error with the exact bounds and leave the counter at 3; two
inputs never raise an arity error. -/
theorem C4_arity_check_witness :
    ((0 : Nat) < 2 ∨ (5 : Nat) < 0) ∧
    ((operatorCall opB [] [] 3).1 = .error (.arityError "B" 2 5 0) ∧
      (operatorCall opB [] [] 3).2 = 3) ∧
    ((2 : Nat) ≤ 2 ∧ (2 : Nat) ≤ 5) ∧
    (operatorCall opB [.vtensor tX, .vtensor tY] [] 3).1 ≠
      .error (.arityError "B" 2 5 2) :=
  ⟨Or.inl (by decide),
   (C4_arity_check opB [] [] 3).1 (Or.inl (by decide)),
   ⟨by decide, by decide⟩,
   (C4_arity_check opB [.vtensor tX, .vtensor tY] [] 3).2 (by decide) (by decide)
     "B" 2 5 2⟩

/-- C10: a call failing the positional arity check leaves the global
node-id counter untouched, so the next construction receives the same
id; a call passing the check always advances the counter by one, whether
instance construction succeeds or raises. -/
theorem C10_counter_frame (op : Operator) (inputs : List PyValue)
    (kwargs : List (String × PyValue)) (ctr : Nat) :
    ((inputs.length < op.schema.minNumInput ∨ op.schema.maxNumInput < inputs.length) →
      (operatorCall op inputs kwargs ctr).2 = ctr) ∧
    (op.schema.minNumInput ≤ inputs.length → inputs.length ≤ op.schema.maxNumInput →
      (operatorCall op inputs kwargs ctr).2 = ctr + 1) := by
  constructor
  · intro hbad
    have hcond : inputs.length > op.schema.maxNumInput ∨
        inputs.length < op.schema.minNumInput := by
      rcases hbad with h | h
      · exact Or.inr h
      · exact Or.inl h
    unfold operatorCall
    rw [if_pos hcond]
  · intro h1 h2
    have hcond : ¬(inputs.length > op.schema.maxNumInput ∨
        inputs.length < op.schema.minNumInput) := by
      push_neg
      exact ⟨h2, h1⟩
    have hctr := operatorInstanceInit_ctr op.toHandle inputs kwargs ctr
    unfold operatorCall
    rw [if_neg hcond]
    cases hinit : operatorInstanceInit op.toHandle inputs kwargs ctr with
    | mk res ctr2 =>
      rw [hinit] at hctr
      cases res with
      | error e => exact hctr
      | ok inst =>
        dsimp only
        split <;> exact hctr

/-- Witness for C10: with bounds `[2, 5]`, a zero-input call keeps the
counter at 7, and a two-input call advances it to 8 even though nothing
else is observed. -/
theorem C10_counter_frame_witness :
    ((0 : Nat) < 2 ∨ (5 : Nat) < 0) ∧
    (operatorCall opB [] [] 7).2 = 7 ∧
    ((2 : Nat) ≤ 2 ∧ (2 : Nat) ≤ 5) ∧
    (operatorCall opB [.vtensor tX, .vtensor tY] [] 7).2 = 8 :=
  ⟨Or.inl (by decide),
   (C10_counter_frame opB [] [] 7).1 (Or.inl (by decide)),
   ⟨by decide, by decide⟩,
   (C10_counter_frame opB [.vtensor tX, .vtensor tY] [] 7).2 (by decide) (by decide)⟩

/-- The stored-argument loop, when it succeeds, appends every keyword
argument verbatim to the spec's argument record and changes nothing
else. -/
theorem addStoredArgs_ok (kws : List (String × PyValue)) : ∀ (spec s2 : OpSpec),
    addStoredArgs spec kws = .ok s2 → s2 = { spec with args := spec.args ++ kws } := by
  induction kws with
  | nil =>
    intro spec s2 h
    simp only [addStoredArgs, Except.ok.injEq] at h
    subst h
    simp
  | cons kv rest ih =>
    intro spec s2 h
    obtain ⟨k, v⟩ := kv
    obtain ⟨nm, as, is, ais, os⟩ := spec
    have step : addStoredArgs (OpSpec.addArg ⟨nm, as, is, ais, os⟩ k v) rest = .ok s2 →
        s2 = { opName := nm, args := as ++ (k, v) :: rest, inputs := is,
               argumentInputs := ais, outputs := os } := by
      intro h2
      rw [ih _ _ h2]
      simp [OpSpec.addArg]
    cases v with
    | vtensor t => exact step h
    | vstr s => exact step h
    | vint n => exact step h
    | vlist m =>
      cases m with
      | nil => simp [addStoredArgs] at h
      | cons x xs => exact step h

/-- The concrete factory object built with an explicit `device`
argument: the supplied device both overrides the device property and is
recorded on the spec by the stored-argument loop. -/
def opDevGpu : Operator :=
  { kindName := "MyOp", schema := schemaOne,
    spec := { opName := "MyOp", args := [("device", .vstr "gpu")],
              inputs := [], argumentInputs := [], outputs := [] },
    device := .vstr "gpu" }

/-- Counterexample to C5: constructing a factory with an explicit
`device="gpu"` keyword argument records `("device", "gpu")` on the spec
as a plain argument — the claim says it is NOT recorded. -/
theorem C5_counterexample :
    operatorInit "MyOp" "cpu" schemaOne [("device", PyValue.vstr "gpu")] = .ok opDevGpu ∧
    opDevGpu.device = PyValue.vstr "gpu" ∧
    ("device", PyValue.vstr "gpu") ∈ opDevGpu.spec.args := by
  refine ⟨rfl, rfl, ?_⟩
  simp [opDevGpu]

/-- C5 amended: at factory construction the `device` key is
special-cased — when absent the descriptor's default device is recorded
as a plain argument and becomes the device; when present the supplied
value becomes the device and is also recorded as a plain argument,
because the stored-argument loop runs over every keyword argument. -/
theorem C5_device_argument_handling (kindName opDevice : String) (schema : Schema)
    (kwargs : List (String × PyValue)) (op : Operator)
    (h : operatorInit kindName opDevice schema kwargs = .ok op) :
    op.device = (match kwargs.lookup "device" with
      | some v => v
      | none => .vstr opDevice) ∧
    op.spec.args = (match kwargs.lookup "device" with
      | some _ => kwargs
      | none => ("device", .vstr opDevice) :: kwargs) := by
  unfold operatorInit at h
  dsimp only at h
  cases hl : kwargs.lookup "device" with
  | some v =>
    rw [hl] at h
    dsimp only at h
    cases hs : addStoredArgs (OpSpec.empty kindName) kwargs with
    | error e => rw [hs] at h; simp at h
    | ok s2 =>
      rw [hs] at h
      simp only [Except.ok.injEq] at h
      subst h
      refine ⟨rfl, ?_⟩
      dsimp only
      rw [addStoredArgs_ok kwargs _ _ hs]
      simp [OpSpec.empty]
  | none =>
    rw [hl] at h
    dsimp only at h
    cases hs : addStoredArgs ((OpSpec.empty kindName).addArg "device" (.vstr opDevice))
        kwargs with
    | error e => rw [hs] at h; simp at h
    | ok s2 =>
      rw [hs] at h
      simp only [Except.ok.injEq] at h
      subst h
      refine ⟨rfl, ?_⟩
      dsimp only
      rw [addStoredArgs_ok kwargs _ _ hs]
      simp [OpSpec.empty, OpSpec.addArg]

/-- Witness for the amended C5 at an explicit `device="gpu"` argument. -/
theorem C5_device_argument_handling_witness :
    operatorInit "MyOp" "cpu" schemaOne [("device", PyValue.vstr "gpu")] = .ok opDevGpu ∧
    (opDevGpu.device = PyValue.vstr "gpu" ∧
     opDevGpu.spec.args = [("device", PyValue.vstr "gpu")]) :=
  ⟨rfl, C5_device_argument_handling "MyOp" "cpu" schemaOne
    [("device", PyValue.vstr "gpu")] opDevGpu rfl⟩

/-- Counterexample to C6: there is no one-shot guard, so a second
`generate_outputs()` call does not fail — it appends the computed number
of outputs again (here the count rule is constantly one, so the instance
ends up with two outputs). -/
theorem C6_counterexample :
    (generateOutputs instA0).outputs.length = 1 ∧
    (generateOutputs (generateOutputs instA0)).outputs.length = 2 :=
  ⟨rfl, rfl⟩

/-- C6 amended: calling `generate_outputs()` a second time does not
raise anything; it recomputes the output count against the already
extended spec and appends that many further outputs. -/
theorem C6_second_generation_appends_again (inst : OperatorInstance) :
    (generateOutputs (generateOutputs inst)).outputs.length =
      (generateOutputs inst).outputs.length +
        inst.op.schema.calculateOutputs ((generateOutputs inst).spec) := by
  have hop : (generateOutputs inst).op = inst.op := by rw [generateOutputs_eq]
  conv_lhs => rw [generateOutputs_eq ((generateOutputs inst))]
  rw [hop]
  simp

/-- The argument-input record a keyword list should produce: one
`(key, handle-name)` pair per non-`name` key bound to a handle. -/
def expectedArgumentInputs (kws : List (String × PyValue)) : List (String × String) :=
  kws.filterMap fun kv =>
    if kv.1 = "name" then none
    else
      match kv.2 with
      | .vtensor t => some (kv.1, t.name)
      | _ => none

/-- The handle values a keyword list appends to the instance's logical
input list: the values of the non-`name` keys bound to handles. -/
def expectedArgumentInputValues (kws : List (String × PyValue)) : List PyValue :=
  kws.filterMap fun kv =>
    if kv.1 = "name" then none
    else
      match kv.2 with
      | .vtensor _ => some kv.2
      | _ => none

/-- When every non-`name` keyword argument is a handle, the
argument-input loop succeeds, appending exactly the expected records and
values (whether or not the positional loops bound `inp`). -/
theorem addArgumentInputs_ok (kws : List (String × PyValue)) :
    ∀ (b : Bool) (spec : OpSpec) (ins : List PyValue),
    (∀ kv ∈ kws, kv.1 ≠ "name" → ∃ t, kv.2 = PyValue.vtensor t) →
    addArgumentInputs b spec ins kws =
      .ok ({ spec with argumentInputs := spec.argumentInputs ++ expectedArgumentInputs kws },
           ins ++ expectedArgumentInputValues kws) := by
  induction kws with
  | nil =>
    intro b spec ins hall
    simp [addArgumentInputs, expectedArgumentInputs, expectedArgumentInputValues]
  | cons kv rest ih =>
    intro b spec ins hall
    obtain ⟨k, v⟩ := kv
    by_cases hk : k = "name"
    · have hrec := ih b spec ins fun kv2 h2 => hall kv2 (List.mem_cons_of_mem _ h2)
      simp [addArgumentInputs, if_pos hk, hrec, hk,
        expectedArgumentInputs, expectedArgumentInputValues, List.filterMap_cons]
    · obtain ⟨t, ht⟩ := hall (k, v) (List.mem_cons_self _ _) hk
      dsimp only at ht
      subst ht
      obtain ⟨nm, as, is, ais, os⟩ := spec
      have hrec := ih b (OpSpec.addArgumentInput ⟨nm, as, is, ais, os⟩ k t.name)
        (ins ++ [PyValue.vtensor t])
        fun kv2 h2 => hall kv2 (List.mem_cons_of_mem _ h2)
      simp only [addArgumentInputs, if_neg hk, hrec,
        expectedArgumentInputs, expectedArgumentInputValues, List.filterMap_cons]
      simp [hk, OpSpec.addArgumentInput, expectedArgumentInputs,
        expectedArgumentInputValues]

/-- When some non-`name` keyword argument is not a handle, the
argument-input loop raises: `TypeError` when a positional-input loop
bound `inp`, `UnboundLocalError` when none did. -/
theorem addArgumentInputs_bad (kws : List (String × PyValue)) :
    ∀ (b : Bool) (spec : OpSpec) (ins : List PyValue),
    (∃ kv ∈ kws, kv.1 ≠ "name" ∧ ∀ t, kv.2 ≠ PyValue.vtensor t) →
    addArgumentInputs b spec ins kws =
      .error (if b then .typeMismatch else .unboundLocal) := by
  induction kws with
  | nil => intro b spec ins hbad; simp at hbad
  | cons kv rest ih =>
    intro b spec ins hbad
    obtain ⟨k, v⟩ := kv
    obtain ⟨bad, hmem, hbad1, hbad2⟩ := hbad
    rcases List.mem_cons.mp hmem with rfl | hmem2
    · dsimp only at hbad1 hbad2
      have hk : ¬ k = "name" := hbad1
      cases v with
      | vtensor t => exact absurd rfl (hbad2 t)
      | vstr s => simp [addArgumentInputs, if_neg hk]
      | vint n => simp [addArgumentInputs, if_neg hk]
      | vlist m => simp [addArgumentInputs, if_neg hk]
    · have hrec : ∀ (spec2 : OpSpec) (ins2 : List PyValue),
          addArgumentInputs b spec2 ins2 rest =
            .error (if b then .typeMismatch else .unboundLocal) :=
        fun spec2 ins2 => ih b spec2 ins2 ⟨bad, hmem2, hbad1, hbad2⟩
      by_cases hk : k = "name"
      · simp only [addArgumentInputs, if_pos hk]
        exact hrec spec ins
      · cases v with
        | vtensor t =>
          simp only [addArgumentInputs, if_neg hk]
          exact hrec _ _
        | vstr s => simp [addArgumentInputs, if_neg hk]
        | vint n => simp [addArgumentInputs, if_neg hk]
        | vlist m => simp [addArgumentInputs, if_neg hk]

/-- C7: the recording half of the claim matches the code, but the
failure half does not at the claim's own inputs: with no positional
inputs, a non-handle keyword argument reaches the `raise TypeError`
whose message formats the local `inp` of the positional-input loops,
which nothing has bound, so construction raises `UnboundLocalError`
instead of `TypeError`. Evaluated here at the failing input (no
positional inputs, `w = 3`): the result is the unbound-local error, not
the claimed type mismatch; with one positional input iterated the same
keyword argument does raise `TypeError`; and a handle-valued keyword
argument is recorded as `(key, value.name)` with the handle appended to
the logical input list, as the claim states. -/
theorem C7_kwarg_type_error_unbound_local :
    (operatorInstanceInit opA [] [("w", PyValue.vint 3)] 0).1 = .error .unboundLocal ∧
    Err.unboundLocal ≠ Err.typeMismatch ∧
    (operatorInstanceInit opA [.vtensor tX] [("w", PyValue.vint 3)] 0).1
      = .error .typeMismatch ∧
    (∃ inst, (operatorInstanceInit opA [] [("w", PyValue.vtensor tX)] 0).1 = .ok inst ∧
      inst.spec.argumentInputs = [("w", tX.name)] ∧
      inst.inputs = [PyValue.vtensor tX]) :=
  ⟨rfl, by decide, rfl, ⟨_, rfl, rfl, rfl⟩⟩

/-- When some keyword argument is an empty list, the stored-argument
loop raises the empty-list `RuntimeError` (no other raise site exists in
that loop). -/
theorem addStoredArgs_bad (kws : List (String × PyValue)) : ∀ (spec : OpSpec),
    (∃ key, (key, PyValue.vlist []) ∈ kws) →
    addStoredArgs spec kws = .error .emptyListArgument := by
  induction kws with
  | nil => intro spec hbad; simp at hbad
  | cons kv rest ih =>
    intro spec hbad
    obtain ⟨k, v⟩ := kv
    obtain ⟨key, hmem⟩ := hbad
    rcases List.mem_cons.mp hmem with heq | hmem2
    · injection heq with h1 h2
      subst h2
      simp [addStoredArgs]
    · cases v with
      | vtensor t => exact ih _ ⟨key, hmem2⟩
      | vstr s => exact ih _ ⟨key, hmem2⟩
      | vint n => exact ih _ ⟨key, hmem2⟩
      | vlist m =>
        cases m with
        | nil => simp [addStoredArgs]
        | cons x xs => exact ih _ ⟨key, hmem2⟩

/-- C8: a factory construction given any empty-list keyword argument
fails with the empty-list error, unconditionally; the same argument with
at least one element succeeds and is recorded verbatim on the spec. -/
theorem C8_empty_list_argument (kindName opDevice : String) (schema : Schema)
    (kwargs : List (String × PyValue)) (k : String) (v : PyValue) (vs : List PyValue) :
    ((∃ key, (key, PyValue.vlist []) ∈ kwargs) →
      operatorInit kindName opDevice schema kwargs = .error .emptyListArgument) ∧
    (∃ op, operatorInit kindName opDevice schema [(k, .vlist (v :: vs))] = .ok op ∧
      (k, PyValue.vlist (v :: vs)) ∈ op.spec.args) := by
  constructor
  · intro hbad
    unfold operatorInit
    dsimp only
    cases hl : kwargs.lookup "device" with
    | some w =>
      dsimp only
      rw [addStoredArgs_bad kwargs _ hbad]
    | none =>
      dsimp only
      rw [addStoredArgs_bad kwargs _ hbad]
  · by_cases hk : k = "device"
    · subst hk
      refine ⟨_, rfl, ?_⟩
      simp [OpSpec.empty, OpSpec.addArg]
    · have hbeq : ("device" == k) = false := by
        simp [hk, Ne.symm hk]
      unfold operatorInit
      dsimp only
      simp only [List.lookup, hbeq]
      refine ⟨_, rfl, ?_⟩
      simp [OpSpec.empty, OpSpec.addArg]

/-- Witness for C8: `my_list_arg=[]` fails with the empty-list error;
`my_list_arg=[1]` succeeds with the argument recorded. -/
theorem C8_empty_list_argument_witness :
    (∃ key, (key, PyValue.vlist []) ∈ [("my_list_arg", PyValue.vlist [])]) ∧
    operatorInit "MyOp" "cpu" schemaOne [("my_list_arg", PyValue.vlist [])]
      = .error .emptyListArgument ∧
    (∃ op, operatorInit "MyOp" "cpu" schemaOne
        [("my_list_arg", PyValue.vlist [PyValue.vint 1])] = .ok op ∧
      ("my_list_arg", PyValue.vlist [PyValue.vint 1]) ∈ op.spec.args) :=
  ⟨⟨"my_list_arg", List.mem_singleton.mpr rfl⟩,
   (C8_empty_list_argument "MyOp" "cpu" schemaOne [("my_list_arg", PyValue.vlist [])]
     "my_list_arg" (PyValue.vint 1) []).1 ⟨"my_list_arg", List.mem_singleton.mpr rfl⟩,
   (C8_empty_list_argument "MyOp" "cpu" schemaOne [] "my_list_arg"
     (PyValue.vint 1) []).2⟩

/-- C9: invoking the named-output reader built with the ordered feature
mapping `{"image": f1, "label": f2}` returns the mapping
`{"image" ↦ out0, "label" ↦ out1}` with the two handles named from the
kind, the instance id and the iteration index; the two handle names are
distinct; and the spec records the plain arguments `feature_names =
["image","label"]` and `features = [f1,f2]` after the wrapped paths. -/
theorem C9_named_output_reader (path ipath f1 f2 : PyValue) (schema : Schema)
    (ctr : Nat) (hmin : schema.minNumInput = 0) :
    ∃ inst,
      tfRecordReaderCall
        (tfRecordReaderInit path ipath [("image", f1), ("label", f2)] schema [])
        [] [] ctr
        = (.ok ([("image", ⟨mintName "_TFRecordReader" ctr 0, "cpu", ctr⟩),
                 ("label", ⟨mintName "_TFRecordReader" ctr 1, "cpu", ctr⟩)], inst),
           ctr + 1) ∧
      mintName "_TFRecordReader" ctr 0 ≠ mintName "_TFRecordReader" ctr 1 ∧
      inst.spec.args = [("path", .vlist (pathAsList path)),
        ("index_path", .vlist (pathAsList ipath)),
        ("feature_names", .vlist [.vstr "image", .vstr "label"]),
        ("features", .vlist [f1, f2])] := by
  have hsch : (tfRecordReaderInit path ipath [("image", f1), ("label", f2)]
      schema []).schema = schema := rfl
  unfold tfRecordReaderCall
  simp only [hsch, List.length_nil]
  have hcond : ¬((0 : Nat) > schema.maxNumInput ∨ (0 : Nat) < schema.minNumInput) := by
    rw [hmin]
    simp
  rw [if_neg hcond]
  exact ⟨_, rfl, fun h => Nat.zero_ne_one (mintName_inj h).2, rfl⟩

/-- Witness for C9 with a zero-minimum schema, concrete paths and
feature descriptors, at counter 5. -/
theorem C9_named_output_reader_witness :
    schemaOne.minNumInput = 0 ∧
    (∃ inst,
      tfRecordReaderCall
        (tfRecordReaderInit (.vstr "p") (.vstr "ip")
          [("image", PyValue.vint 1), ("label", PyValue.vint 2)] schemaOne [])
        [] [] 5
        = (.ok ([("image", ⟨mintName "_TFRecordReader" 5 0, "cpu", 5⟩),
                 ("label", ⟨mintName "_TFRecordReader" 5 1, "cpu", 5⟩)], inst),
           6) ∧
      mintName "_TFRecordReader" 5 0 ≠ mintName "_TFRecordReader" 5 1 ∧
      inst.spec.args = [("path", .vlist (pathAsList (.vstr "p"))),
        ("index_path", .vlist (pathAsList (.vstr "ip"))),
        ("feature_names", .vlist [.vstr "image", .vstr "label"]),
        ("features", .vlist [PyValue.vint 1, PyValue.vint 2])]) :=
  ⟨rfl, C9_named_output_reader (.vstr "p") (.vstr "ip") (PyValue.vint 1)
    (PyValue.vint 2) schemaOne 5 rfl⟩
